import Mathlib

/-!
Shallow embedding of the task-manager HTTP service (FastAPI + SQLAlchemy + SQLite)
from `app/models.py`, `app/schemas.py`, `app/routers/users.py`, `app/routers/tasks.py`.

Modelling conventions:
* The relational store is a `Store` of two lists (`users`, `tasks`) kept in rowid
  (insertion) order; `query(...).filter(...).first()` is `List.find?`, `.all()` with a
  filter is `List.filter`, `db.add` appends, `db.delete` is `List.eraseP` of the first
  matching row.
* SQLite assigns the integer primary key of a fresh row as `max(existing ids) + 1`
  (1 on an empty table); `nextId` models that.
* `datetime.utcnow()` is an abstract clock value passed in as `now : Nat`.
* Python strings that are *manipulated* (the `x-token` header, the login token) are
  `List Char`; data fields that are only compared for equality (usernames, emails,
  passwords, titles, ...) are Lean `String`s.
* ORM row attributes may transiently hold Python `None` even for `nullable=False`
  columns (a plain `setattr` does not check); therefore `Task.title`, `Task.status`,
  `Task.priority` are `Option`s in the row model, and `db.commit()` enforces the
  NOT NULL column constraints of `models.py` via `rowOk` — a violation raises
  `IntegrityError` (an unhandled exception, surfaced as HTTP 500), leaving the
  store unchanged.
* FastAPI framework behaviour that the source declarations determine: a required
  header (`Header(...)`) that is absent is rejected by request validation with
  HTTP 422 *before* any dependency or handler code runs; request-body schema
  violations likewise yield 422 and are out of scope here (handlers receive
  already-validated schema values).
* Python `int(s)` is modelled by `pyInt?`: surrounding whitespace stripped, optional
  sign, ASCII decimal digits. (Underscore digit grouping and non-ASCII digits are
  accepted by Python but not modelled; no token this system issues contains them.)
* `str.split(":")` is `pySplit ':'`, with Python's semantics (`"".split(":") == [""]`,
  a list one longer than the number of separators).
-/

namespace TaskManager

/-- Enumeration `TaskStatus` of `app/models.py`. -/
inductive TaskStatus where
  | todo
  | in_progress
  | done
  deriving DecidableEq, Repr

/-- Enumeration `TaskPriority` of `app/models.py`. -/
inductive TaskPriority where
  | low
  | medium
  | high
  deriving DecidableEq, Repr

/-- Row `User` of `app/models.py`: id (integer primary key), username, email,
password (stored verbatim), created_at. -/
structure User where
  id : Nat
  username : String
  email : String
  password : String
  created_at : Nat
  deriving DecidableEq, Repr

/-- Row `Task` of `app/models.py`, as the ORM object sees it.  The `title`, `status`
and `priority` columns are `nullable=False` in the database, but the Python
attribute can transiently be `None` (a bare `setattr` does not validate), so they
are `Option`s here; `rowOk` below is the commit-time NOT NULL check. -/
structure Task where
  id : Nat
  title : Option String
  description : Option String
  status : Option TaskStatus
  priority : Option TaskPriority
  created_at : Nat
  due_date : Option String
  user_id : Nat
  deriving DecidableEq, Repr

/-- The relational store: the two tables in rowid (insertion) order. -/
structure Store where
  users : List User
  tasks : List Task
  deriving DecidableEq, Repr

/-- Schema `UserCreate` of `app/schemas.py`. -/
structure UserCreate where
  username : String
  email : String
  password : String
  deriving DecidableEq, Repr

/-- Schema `UserLogin` of `app/schemas.py`. -/
structure UserLogin where
  username : String
  password : String
  deriving DecidableEq, Repr

/-- Schema `TokenResponse` of `app/schemas.py`. -/
structure TokenResponse where
  token : List Char
  user_id : Nat
  deriving DecidableEq, Repr

/-- Schema `TaskCreate` of `app/schemas.py`, with pydantic defaults. -/
structure TaskCreate where
  title : String
  description : Option String := none
  status : TaskStatus := TaskStatus.todo
  priority : TaskPriority := TaskPriority.medium
  due_date : Option String := none
  deriving DecidableEq, Repr

/-- Schema `TaskUpdate` of `app/schemas.py`.  Every field is `Optional[...] = None`; pydantic
distinguishes a field absent from the request body (outer `none`, excluded by
`dict(exclude_unset=True)`) from a field explicitly sent as JSON `null`
(outer `some none`). -/
structure TaskUpdate where
  title : Option (Option String) := none
  description : Option (Option String) := none
  status : Option (Option TaskStatus) := none
  priority : Option (Option TaskPriority) := none
  due_date : Option (Option String) := none
  deriving DecidableEq, Repr

/-- HTTP-level failure outcomes of a request. -/
inductive HErr where
  /-- 422: the framework's request validation rejected the request (missing
  required header / malformed body) before any handler code ran. -/
  | validationError
  /-- 400 with a detail message (`HTTPException(status_code=400, ...)`). -/
  | badRequest (detail : String)
  /-- 401 with a detail message (`HTTPException(status_code=401, ...)`). -/
  | unauthorized (detail : String)
  /-- 404 with a detail message (`HTTPException(status_code=404, ...)`). -/
  | notFound (detail : String)
  /-- 500: `db.commit()` raised `IntegrityError` (NOT NULL column constraint),
  unhandled by the route. -/
  | integrityError
  deriving DecidableEq, Repr

/-- The HTTP status code of a failure outcome. -/
def HErr.status : HErr → Nat
  | .validationError => 422
  | .badRequest _ => 400
  | .unauthorized _ => 401
  | .notFound _ => 404
  | .integrityError => 500

/-- SQLite's integer-primary-key assignment for a fresh row: one more than the
largest existing id (1 on an empty table). -/
def nextId (ids : List Nat) : Nat := ids.foldr max 0 + 1

/-- Python `s.split(sep)` for a single-character separator, over `List Char`:
the result has one more element than the number of separator occurrences
(`"".split(":") == [""]`). -/
def pySplit (sep : Char) : List Char → List (List Char)
  | [] => [[]]
  | c :: cs =>
    if c = sep then [] :: pySplit sep cs
    else
      match pySplit sep cs with
      | [] => [[c]]
      | p :: ps => (c :: p) :: ps

/-- The decimal digit character for `d < 10`. -/
def digitChar (d : Nat) : Char := Char.ofNat (48 + d)

/-- Computation `natDigitsCore fuel n`: decimal digits of `n`, most significant first,
with explicit fuel (any `fuel > n` suffices) so that it is structural. -/
def natDigitsCore : Nat → Nat → List Char
  | 0, _ => []
  | fuel + 1, n =>
    if n < 10 then [digitChar n]
    else natDigitsCore fuel (n / 10) ++ [digitChar (n % 10)]

/-- The decimal representation of `n`, as Python `str(n)` / an f-string prints it. -/
def natDigits (n : Nat) : List Char := natDigitsCore (n + 1) n

/-- The numeric value of an ASCII decimal digit character, if it is one. -/
def digitVal? (c : Char) : Option Nat :=
  if 48 ≤ c.toNat ∧ c.toNat ≤ 57 then some (c.toNat - 48) else none

/-- Accumulating decimal parse of a digit string; fails on any non-digit. -/
def parseDigitsAux (acc : Nat) : List Char → Option Nat
  | [] => some acc
  | c :: cs =>
    match digitVal? c with
    | none => none
    | some d => parseDigitsAux (acc * 10 + d) cs

/-- Decimal parse of a non-empty digit string. -/
def parseDigits : List Char → Option Nat
  | [] => none
  | l => parseDigitsAux 0 l

/-- Strip surrounding whitespace, as Python `int(s)` does before parsing. -/
def pyStrip (s : List Char) : List Char :=
  ((s.dropWhile Char.isWhitespace).reverse.dropWhile Char.isWhitespace).reverse

/-- Model of Python `int(s)`: strip surrounding whitespace, optional `+`/`-` sign,
then ASCII decimal digits; anything else raises `ValueError` (here: `none`).
(Underscore grouping and non-ASCII digits are not modelled.) -/
def pyInt? (s : List Char) : Option Int :=
  match pyStrip s with
  | '+' :: rest => (parseDigits rest).map Int.ofNat
  | '-' :: rest => (parseDigits rest).map (fun n => -(n : Int))
  | rest => (parseDigits rest).map Int.ofNat

/-- Handler `get_current_user` of `routers/tasks.py`: split the `x-token` header on `":"`,
parse segment `[1]` as an int (IndexError/ValueError → 401 "Invalid token format"),
then look the id up among users (absent → 401 "Invalid token"). -/
def get_current_user (x_token : List Char) (db : Store) : Except HErr User :=
  match (pySplit ':' x_token).get? 1 with
  | none => .error (.unauthorized "Invalid token format")
  | some seg =>
    match pyInt? seg with
    | none => .error (.unauthorized "Invalid token format")
    | some uid =>
      match db.users.find? (fun u => (u.id : Int) == uid) with
      | none => .error (.unauthorized "Invalid token")
      | some u => .ok u

/-- Handler `register` of `routers/users.py`: username-uniqueness check first, then email,
then insert the new user (password stored verbatim).  The returned store is the
database state after the request. -/
def register (user_in : UserCreate) (now : Nat) (db : Store) :
    Except HErr User × Store :=
  match db.users.find? (fun u => u.username == user_in.username) with
  | some _ => (.error (.badRequest "Username already taken"), db)
  | none =>
    match db.users.find? (fun u => u.email == user_in.email) with
    | some _ => (.error (.badRequest "Email already registered"), db)
    | none =>
      let user : User :=
        { id := nextId (db.users.map User.id)
          username := user_in.username
          email := user_in.email
          password := user_in.password
          created_at := now }
      (.ok user, { db with users := db.users ++ [user] })

/-- The token string `f"user_id:{uid}"` issued by `login`. -/
def tokenOf (uid : Nat) : List Char := "user_id:".toList ++ natDigits uid

/-- Handler `login` of `routers/users.py`: look the user up by username; absent user and
wrong password produce the *same* 401; on success issue `user_id:<id>`. -/
def login (credentials : UserLogin) (db : Store) : Except HErr TokenResponse :=
  match db.users.find? (fun u => u.username == credentials.username) with
  | none => .error (.unauthorized "Invalid username or password")
  | some user =>
    if user.password ≠ credentials.password then
      .error (.unauthorized "Invalid username or password")
    else
      .ok { token := tokenOf user.id, user_id := user.id }

/-- Handler `list_tasks` of `routers/tasks.py`: all task rows with the caller's `user_id`,
in store order, unpaginated. -/
def list_tasks (db : Store) (current_user : User) : List Task :=
  db.tasks.filter (fun t => t.user_id == current_user.id)

/-- Handler `create_task` of `routers/tasks.py`: `Task(**task_in.dict(), user_id=current_user.id)`,
insert, commit.  All NOT NULL columns are populated (the schema guarantees
`title`/`status`/`priority` are non-null), so the commit always succeeds. -/
def create_task (task_in : TaskCreate) (now : Nat) (db : Store) (current_user : User) :
    Except HErr Task × Store :=
  let task : Task :=
    { id := nextId (db.tasks.map Task.id)
      title := some task_in.title
      description := task_in.description
      status := some task_in.status
      priority := some task_in.priority
      created_at := now
      due_date := task_in.due_date
      user_id := current_user.id }
  (.ok task, { db with tasks := db.tasks ++ [task] })

/-- The row filter of the single-task routes:
`Task.id == task_id, Task.user_id == current_user.id`. -/
def ownedBy (task_id uid : Nat) (t : Task) : Bool :=
  t.id == task_id && t.user_id == uid

/-- Handler `get_task` of `routers/tasks.py`: first row matching id and owner, else 404. -/
def get_task (task_id : Nat) (db : Store) (current_user : User) : Except HErr Task :=
  match db.tasks.find? (ownedBy task_id current_user.id) with
  | none => .error (.notFound s!"Task {task_id} not found")
  | some task => .ok task

/-- The `for field, value in task_in.dict(exclude_unset=True).items(): setattr(...)`
loop of `update_task`: every field *present* in the request body (outer `some`)
is written to the row — including an explicit `null` —, every absent field is
left alone. -/
def applyUpdate (task : Task) (task_in : TaskUpdate) : Task :=
  { task with
    title := task_in.title.getD task.title
    description := task_in.description.getD task.description
    status := task_in.status.getD task.status
    priority := task_in.priority.getD task.priority
    due_date := task_in.due_date.getD task.due_date }

/-- The commit-time NOT NULL check for a task row (`title`, `status`, `priority`
are `nullable=False` in `models.py`). -/
def rowOk (t : Task) : Bool :=
  t.title.isSome && t.status.isSome && t.priority.isSome

/-- Replace the first row matching `p` (the row the ORM object is bound to). -/
def setFirst (p : Task → Bool) (t' : Task) : List Task → List Task
  | [] => []
  | t :: ts => if p t then t' :: ts else t :: setFirst p t' ts

/-- Handler `update_task` of `routers/tasks.py`: find the caller's row (404 otherwise),
apply the present fields, commit.  A commit that would write NULL into a
NOT NULL column raises `IntegrityError` (500) and persists nothing. -/
def update_task (task_id : Nat) (task_in : TaskUpdate) (db : Store)
    (current_user : User) : Except HErr Task × Store :=
  match db.tasks.find? (ownedBy task_id current_user.id) with
  | none => (.error (.notFound s!"Task {task_id} not found"), db)
  | some task =>
    let task' := applyUpdate task task_in
    if rowOk task' then
      (.ok task',
        { db with tasks := setFirst (ownedBy task_id current_user.id) task' db.tasks })
    else
      (.error .integrityError, db)

/-- Handler `delete_task` of `routers/tasks.py`: find the caller's row (404 otherwise),
delete it, commit. -/
def delete_task (task_id : Nat) (db : Store) (current_user : User) :
    Except HErr Unit × Store :=
  match db.tasks.find? (ownedBy task_id current_user.id) with
  | none => (.error (.notFound s!"Task {task_id} not found"), db)
  | some _ =>
    (.ok (), { db with tasks := db.tasks.eraseP (ownedBy task_id current_user.id) })

/-- FastAPI wiring of every `/tasks` route: the `x-token` header is a required
header (`Header(...)`), so an absent header is rejected by request validation
(422) before any dependency runs; otherwise the `get_current_user` dependency
runs before the handler body, and its `HTTPException` short-circuits the
request with the store untouched. -/
def authThen {α : Type} (x_token : Option (List Char)) (db : Store)
    (handler : User → Except HErr α × Store) : Except HErr α × Store :=
  match x_token with
  | none => (.error .validationError, db)
  | some tok =>
    match get_current_user tok db with
    | .error e => (.error e, db)
    | .ok cu => handler cu

/-- Route `GET /tasks/` as a full request. -/
def listTasksRoute (x_token : Option (List Char)) (db : Store) :
    Except HErr (List Task) × Store :=
  authThen x_token db (fun cu => (.ok (list_tasks db cu), db))

/-- Route `POST /tasks/` as a full request. -/
def createTaskRoute (x_token : Option (List Char)) (task_in : TaskCreate) (now : Nat)
    (db : Store) : Except HErr Task × Store :=
  authThen x_token db (fun cu => create_task task_in now db cu)

/-- Route `GET /tasks/(task_id)` as a full request. -/
def getTaskRoute (x_token : Option (List Char)) (task_id : Nat) (db : Store) :
    Except HErr Task × Store :=
  authThen x_token db (fun cu => (get_task task_id db cu, db))

/-- Route `PUT /tasks/(task_id)` as a full request. -/
def updateTaskRoute (x_token : Option (List Char)) (task_id : Nat)
    (task_in : TaskUpdate) (db : Store) : Except HErr Task × Store :=
  authThen x_token db (fun cu => update_task task_id task_in db cu)

/-- Route `DELETE /tasks/(task_id)` as a full request. -/
def deleteTaskRoute (x_token : Option (List Char)) (task_id : Nat) (db : Store) :
    Except HErr Unit × Store :=
  authThen x_token db (fun cu => delete_task task_id db cu)

/-! ### Demonstration data for concrete evaluations -/

/-- A concrete user, for concrete evaluations. -/
def demoUser : User :=
  { id := 7, username := "alice", email := "alice@x.com", password := "pw1", created_at := 0 }

/-- A second concrete user. -/
def demoUserB : User :=
  { id := 9, username := "bob", email := "bob@x.com", password := "pw2", created_at := 0 }

/-- A concrete task owned by `demoUser`. -/
def demoTask : Task :=
  { id := 1
    title := some "Buy milk"
    description := none
    status := some TaskStatus.todo
    priority := some TaskPriority.medium
    created_at := 0
    due_date := none
    user_id := 7 }

/-- A concrete store with two users and one task owned by `demoUser`. -/
def demoDb : Store := { users := [demoUser, demoUserB], tasks := [demoTask] }

/-- The same two users with no tasks at all. -/
def demoDbNoTasks : Store := { users := [demoUser, demoUserB], tasks := [] }

/-- The store `demoDb` after marking `demoTask` done. -/
def demoDbDone : Store :=
  { users := [demoUser, demoUserB], tasks := [{ demoTask with status := some TaskStatus.done }] }

/-! ### Specification predicates -/

/-- The store invariants of the data model: every task's `user_id` references an
existing user, and usernames and emails are globally unique across users. -/
def Inv (db : Store) : Prop :=
  (∀ t ∈ db.tasks, ∃ u ∈ db.users, u.id = t.user_id) ∧
  (db.users.map User.username).Nodup ∧
  (db.users.map User.email).Nodup

/-- The frame property of a successful partial update: the store decomposes
around exactly one task `t` (the caller's row with the requested id), which is
replaced by `t'`; all other rows and all users are untouched; `t'` agrees with
`t` on the identity fields and on every field absent from the request, and takes
the request's value on every present field. -/
def UpdateFrame (db db' : Store) (uid tid : Nat) (u : TaskUpdate) (t' : Task) : Prop :=
  ∃ t l₁ l₂,
    db.tasks = l₁ ++ t :: l₂ ∧
    db'.tasks = l₁ ++ t' :: l₂ ∧
    db'.users = db.users ∧
    t.id = tid ∧ t.user_id = uid ∧
    t' = applyUpdate t u ∧
    t'.id = t.id ∧ t'.user_id = t.user_id ∧ t'.created_at = t.created_at ∧
    (u.title = none → t'.title = t.title) ∧
    (u.description = none → t'.description = t.description) ∧
    (u.status = none → t'.status = t.status) ∧
    (u.priority = none → t'.priority = t.priority) ∧
    (u.due_date = none → t'.due_date = t.due_date) ∧
    (∀ v, u.title = some v → t'.title = v) ∧
    (∀ v, u.description = some v → t'.description = v) ∧
    (∀ v, u.status = some v → t'.status = v) ∧
    (∀ v, u.priority = some v → t'.priority = v) ∧
    (∀ v, u.due_date = some v → t'.due_date = v)

/-- The contract of `create_task`: it succeeds, returning a freshly numbered row
owned by the caller that mirrors the (defaulted) schema fields, appended to the
store; when the request supplied only `title`, the pydantic defaults show up as
status `todo`, priority `medium`, and null description/due_date. -/
def CreateResult (db : Store) (cu : User) (now : Nat) (tc : TaskCreate) : Prop :=
  ∃ t db',
    create_task tc now db cu = (.ok t, db') ∧
    t.title = some tc.title ∧
    t.description = tc.description ∧
    t.status = some tc.status ∧
    t.priority = some tc.priority ∧
    t.due_date = tc.due_date ∧
    t.user_id = cu.id ∧
    t.id = nextId (db.tasks.map Task.id) ∧
    t.created_at = now ∧
    db'.tasks = db.tasks ++ [t] ∧
    db'.users = db.users ∧
    (tc = { title := tc.title } →
      t.status = some TaskStatus.todo ∧ t.priority = some TaskPriority.medium ∧
      t.description = none ∧ t.due_date = none)

/-! ### Infrastructure lemmas: digits and parsing -/

theorem digitVal?_digitChar {d : Nat} (h : d < 10) : digitVal? (digitChar d) = some d := by
  interval_cases d <;> decide

theorem digit_range_digitChar {d : Nat} (h : d < 10) :
    48 ≤ (digitChar d).toNat ∧ (digitChar d).toNat ≤ 57 := by
  interval_cases d <;> decide

theorem natDigitsCore_digits :
    ∀ fuel n, ∀ c ∈ natDigitsCore fuel n, 48 ≤ c.toNat ∧ c.toNat ≤ 57 := by
  intro fuel
  induction fuel with
  | zero => intro n c hc; simp [natDigitsCore] at hc
  | succ fuel ih =>
    intro n c hc
    rw [natDigitsCore] at hc
    split at hc
    · next h =>
      simp only [List.mem_singleton] at hc
      subst hc
      exact digit_range_digitChar h
    · next h =>
      rcases List.mem_append.1 hc with h1 | h1
      · exact ih _ c h1
      · simp only [List.mem_singleton] at h1
        subst h1
        exact digit_range_digitChar (Nat.mod_lt _ (by omega))

theorem natDigitsCore_ne_nil {fuel n : Nat} (h : n < fuel) : natDigitsCore fuel n ≠ [] := by
  cases fuel with
  | zero => omega
  | succ fuel =>
    rw [natDigitsCore]
    split
    · simp
    · simp

theorem parseDigitsAux_append (acc : Nat) (l₁ l₂ : List Char) :
    parseDigitsAux acc (l₁ ++ l₂) =
      (parseDigitsAux acc l₁).bind (fun m => parseDigitsAux m l₂) := by
  induction l₁ generalizing acc with
  | nil => rfl
  | cons c cs ih =>
    simp only [List.cons_append, parseDigitsAux]
    cases digitVal? c with
    | none => rfl
    | some d => exact ih _

theorem parse_natDigitsCore :
    ∀ fuel n, n < fuel → ∀ acc,
      ∃ k, parseDigitsAux acc (natDigitsCore fuel n) = some (acc * 10 ^ k + n) := by
  intro fuel
  induction fuel with
  | zero => intro n h; omega
  | succ fuel ih =>
    intro n h acc
    rw [natDigitsCore]
    split
    · next hlt =>
      refine ⟨1, ?_⟩
      simp [parseDigitsAux, digitVal?_digitChar hlt, pow_one]
    · next hge =>
      have hdiv : n / 10 < fuel := by omega
      obtain ⟨k, hk⟩ := ih (n / 10) hdiv acc
      refine ⟨k + 1, ?_⟩
      rw [parseDigitsAux_append, hk]
      show parseDigitsAux (acc * 10 ^ k + n / 10) [digitChar (n % 10)] = _
      simp only [parseDigitsAux, digitVal?_digitChar (Nat.mod_lt n (by omega))]
      congr 1
      have hmod : n / 10 * 10 + n % 10 = n := by omega
      calc (acc * 10 ^ k + n / 10) * 10 + n % 10
          = acc * (10 ^ k * 10) + (n / 10 * 10 + n % 10) := by ring
        _ = acc * 10 ^ (k + 1) + n := by rw [← pow_succ, hmod]

theorem parseDigits_natDigits (n : Nat) : parseDigits (natDigits n) = some n := by
  have hne : natDigitsCore (n + 1) n ≠ [] := natDigitsCore_ne_nil (by omega)
  obtain ⟨k, hk⟩ := parse_natDigitsCore (n + 1) n (by omega) 0
  unfold natDigits
  cases h : natDigitsCore (n + 1) n with
  | nil => exact absurd h hne
  | cons c cs =>
    rw [h] at hk
    simpa [parseDigits] using hk

theorem natDigits_digits {n : Nat} {c : Char} (hc : c ∈ natDigits n) :
    48 ≤ c.toNat ∧ c.toNat ≤ 57 := natDigitsCore_digits _ _ c hc

theorem digit_not_whitespace {c : Char} (h : 48 ≤ c.toNat ∧ c.toNat ≤ 57) :
    ¬ c.isWhitespace = true := by
  intro hw
  simp only [Char.isWhitespace, Bool.or_eq_true, decide_eq_true_eq] at hw
  rcases hw with ((h1 | h1) | h1) | h1 <;> (subst h1; revert h; decide)

theorem digit_ne_plus {c : Char} (h : 48 ≤ c.toNat ∧ c.toNat ≤ 57) : c ≠ '+' := by
  intro he; subst he; revert h; decide

theorem digit_ne_minus {c : Char} (h : 48 ≤ c.toNat ∧ c.toNat ≤ 57) : c ≠ '-' := by
  intro he; subst he; revert h; decide

theorem digit_ne_colon {c : Char} (h : 48 ≤ c.toNat ∧ c.toNat ≤ 57) : c ≠ ':' := by
  intro he; subst he; revert h; decide

theorem dropWhile_eq_self_of_forall {p : Char → Bool} {l : List Char}
    (h : ∀ c ∈ l, ¬ p c = true) : l.dropWhile p = l := by
  cases l with
  | nil => rfl
  | cons a l =>
    rw [List.dropWhile_cons]
    simp [h a (List.mem_cons_self a l)]

theorem pyStrip_eq_self {l : List Char} (h : ∀ c ∈ l, ¬ c.isWhitespace = true) :
    pyStrip l = l := by
  unfold pyStrip
  rw [dropWhile_eq_self_of_forall h,
    dropWhile_eq_self_of_forall (fun c hc => h c (List.mem_reverse.1 hc)),
    List.reverse_reverse]

theorem pyInt?_natDigits (n : Nat) : pyInt? (natDigits n) = some (n : Int) := by
  have hdig : ∀ c ∈ natDigits n, 48 ≤ c.toNat ∧ c.toNat ≤ 57 := fun c hc => natDigits_digits hc
  have hstrip : pyStrip (natDigits n) = natDigits n :=
    pyStrip_eq_self (fun c hc => digit_not_whitespace (hdig c hc))
  have hne : natDigits n ≠ [] := natDigitsCore_ne_nil (by omega)
  unfold pyInt?
  rw [hstrip]
  cases hl : natDigits n with
  | nil => exact absurd hl hne
  | cons c cs =>
    have hc : 48 ≤ c.toNat ∧ c.toNat ≤ 57 := by
      have := hdig c; rw [hl] at this; exact this (List.mem_cons_self c cs)
    have hplus := digit_ne_plus hc
    have hminus := digit_ne_minus hc
    have hparse : parseDigits (c :: cs) = some n := by
      rw [← hl]; exact parseDigits_natDigits n
    split
    · next heq => exact absurd (List.head_eq_of_cons_eq heq.symm) (Ne.symm hplus)
    · next heq => exact absurd (List.head_eq_of_cons_eq heq.symm) (Ne.symm hminus)
    · next =>
      rw [hparse]
      rfl

/-! ### Infrastructure lemmas: splitting -/

theorem pySplit_ne_nil (sep : Char) (l : List Char) : pySplit sep l ≠ [] := by
  induction l with
  | nil => simp [pySplit]
  | cons c cs ih =>
    rw [pySplit]
    split
    · simp
    · cases h : pySplit sep cs with
      | nil => simp
      | cons p ps => simp

theorem pySplit_of_not_mem {sep : Char} {l : List Char} (h : sep ∉ l) :
    pySplit sep l = [l] := by
  induction l with
  | nil => rfl
  | cons c cs ih =>
    have hc : ¬ c = sep := fun he => h (he ▸ List.mem_cons_self c cs)
    rw [pySplit, if_neg hc, ih (fun hm => h (List.mem_cons_of_mem c hm))]

theorem pySplit_append {sep : Char} {l₁ : List Char} (l₂ : List Char) (h : sep ∉ l₁) :
    pySplit sep (l₁ ++ sep :: l₂) = l₁ :: pySplit sep l₂ := by
  induction l₁ with
  | nil =>
    rw [List.nil_append, pySplit, if_pos rfl]
  | cons c cs ih =>
    have hc : ¬ c = sep := fun he => h (he ▸ List.mem_cons_self c cs)
    rw [List.cons_append, pySplit, if_neg hc, ih (fun hm => h (List.mem_cons_of_mem c hm))]

/-- The second colon-separated segment of `p ++ ":" ++ seg ++ rest` is `seg`,
whenever `p` and `seg` are colon-free and `rest` is empty or starts with a colon. -/
theorem pySplit_get?_one {p seg rest : List Char} (hp : ':' ∉ p) (hseg : ':' ∉ seg)
    (hrest : rest = [] ∨ ∃ r, rest = ':' :: r) :
    (pySplit ':' (p ++ ':' :: (seg ++ rest))).get? 1 = some seg := by
  rw [pySplit_append _ hp]
  rcases hrest with h | ⟨r, h⟩
  · subst h
    rw [List.append_nil, pySplit_of_not_mem hseg]
    rfl
  · subst h
    rw [pySplit_append _ hseg]
    rfl

/-- Auth extraction `get_current_user` is determined by the second colon-separated segment alone:
if it parses as the id of an existing user, authentication succeeds as that user,
whatever the first segment and any further segments say. -/
theorem auth_second_segment {db : Store} {p seg rest : List Char} {uid : Int} {u : User}
    (hp : ':' ∉ p) (hseg : ':' ∉ seg) (hrest : rest = [] ∨ ∃ r, rest = ':' :: r)
    (hparse : pyInt? seg = some uid)
    (hfind : db.users.find? (fun x => (x.id : Int) == uid) = some u) :
    get_current_user (p ++ ':' :: (seg ++ rest)) db = .ok u := by
  unfold get_current_user
  rw [pySplit_get?_one hp hseg hrest]
  simp only [hparse, hfind]

/-! ### Infrastructure lemmas: ids and list surgery -/

theorem le_foldr_max {i : Nat} {ids : List Nat} (h : i ∈ ids) : i ≤ ids.foldr max 0 := by
  induction ids with
  | nil => cases h
  | cons a l ih =>
    rcases List.mem_cons.1 h with h1 | h1
    · subst h1; exact le_max_left _ _
    · exact le_trans (ih h1) (le_max_right _ _)

theorem lt_nextId {i : Nat} {ids : List Nat} (h : i ∈ ids) : i < nextId ids := by
  have := le_foldr_max h
  unfold nextId
  omega

theorem setFirst_append_of_forall_not {p : Task → Bool} (t' : Task) {l₁ : List Task}
    (t : Task) (l₂ : List Task) (h₁ : ∀ x ∈ l₁, ¬ p x = true) (hpt : p t = true) :
    setFirst p t' (l₁ ++ t :: l₂) = l₁ ++ t' :: l₂ := by
  induction l₁ with
  | nil => simp [setFirst, hpt]
  | cons a as ih =>
    rw [List.cons_append, setFirst, if_neg (h₁ a (List.mem_cons_self a as)),
      ih (fun x hx => h₁ x (List.mem_cons_of_mem a hx)), List.cons_append]

theorem mem_setFirst {p : Task → Bool} {t' x : Task} {l : List Task}
    (h : x ∈ setFirst p t' l) : x = t' ∨ x ∈ l := by
  induction l with
  | nil => simp [setFirst] at h
  | cons a as ih =>
    rw [setFirst] at h
    split at h
    · rcases List.mem_cons.1 h with h1 | h1
      · exact Or.inl h1
      · exact Or.inr (List.mem_cons_of_mem a h1)
    · rcases List.mem_cons.1 h with h1 | h1
      · exact Or.inr (h1 ▸ List.mem_cons_self a as)
      · rcases ih h1 with h2 | h2
        · exact Or.inl h2
        · exact Or.inr (List.mem_cons_of_mem a h2)

theorem colon_not_mem_natDigits (n : Nat) : ':' ∉ natDigits n :=
  fun hc => digit_ne_colon (natDigits_digits hc) rfl

/-- Inversion of a successful `register`: both uniqueness checks passed, the
returned user is the freshly built row, and the store gained exactly that row. -/
theorem register_ok {db db' : Store} {uc : UserCreate} {now : Nat} {u : User}
    (h : register uc now db = (.ok u, db')) :
    db.users.find? (fun x => x.username == uc.username) = none ∧
    db.users.find? (fun x => x.email == uc.email) = none ∧
    u = { id := nextId (db.users.map User.id), username := uc.username,
          email := uc.email, password := uc.password, created_at := now } ∧
    db' = { db with users := db.users ++ [u] } := by
  unfold register at h
  cases hU : db.users.find? (fun x => x.username == uc.username) with
  | some _ => rw [hU] at h; simp at h
  | none =>
    rw [hU] at h
    cases hE : db.users.find? (fun x => x.email == uc.email) with
    | some _ => rw [hE] at h; simp at h
    | none =>
      rw [hE] at h
      simp only [Prod.mk.injEq, Except.ok.injEq] at h
      obtain ⟨hu, hdb⟩ := h
      subst hu
      exact ⟨rfl, rfl, rfl, hdb.symm⟩

/-- C9: auth extraction never checks the first colon-separated segment of the
token: for every header value whose second colon-separated segment parses as the
integer id of an existing user, authentication succeeds as that user, whatever
the first segment is and whatever trailing segments follow. -/
theorem c9_first_segment_unchecked {db : Store} {p seg rest : List Char} {uid : Int}
    {u : User} (hp : ':' ∉ p) (hseg : ':' ∉ seg)
    (hrest : rest = [] ∨ ∃ r, rest = ':' :: r)
    (hparse : pyInt? seg = some uid)
    (hfind : db.users.find? (fun x => (x.id : Int) == uid) = some u) :
    get_current_user (p ++ ':' :: (seg ++ rest)) db = .ok u :=
  auth_second_segment hp hseg hrest hparse hfind

/-- Witness for C9: `anything:7` and `user_id:7:extra` both authenticate as the
stored user with id 7. -/
theorem c9_witness :
    get_current_user ("anything".toList ++ ':' :: ("7".toList ++ [])) demoDb =
      .ok demoUser ∧
    get_current_user ("user_id".toList ++ ':' :: ("7".toList ++ (':' :: "extra".toList)))
      demoDb = .ok demoUser :=
  ⟨c9_first_segment_unchecked (by decide) (by decide) (Or.inl rfl)
      (show pyInt? "7".toList = some 7 by decide) rfl,
   c9_first_segment_unchecked (by decide) (by decide) (Or.inr ⟨_, rfl⟩)
      (show pyInt? "7".toList = some 7 by decide) rfl⟩

/-- C3: after a successful registration, logging in with the same username and
password succeeds and returns the token `user_id:<id>` together with that user's
id, and feeding that token to the auth extraction resolves to the registered
user. -/
theorem c3_register_login_auth_roundtrip {db db' : Store} {uc : UserCreate} {now : Nat}
    {u : User} (h : register uc now db = (.ok u, db')) :
    login { username := uc.username, password := uc.password } db' =
      .ok { token := tokenOf u.id, user_id := u.id } ∧
    tokenOf u.id = "user_id:".toList ++ natDigits u.id ∧
    get_current_user (tokenOf u.id) db' = .ok u := by
  obtain ⟨hU, hE, hu, hdb⟩ := register_ok h
  have husers : db'.users = db.users ++ [u] := by rw [hdb]
  have huname : u.username = uc.username := by rw [hu]
  have hupass : u.password = uc.password := by rw [hu]
  have hid : u.id = nextId (db.users.map User.id) := by rw [hu]
  refine ⟨?_, rfl, ?_⟩
  · unfold login
    simp only [husers, List.find?_append, hU, Option.none_or]
    have hfu : List.find? (fun x => x.username == uc.username) [u] = some u := by
      simp [List.find?, huname]
    rw [hfu]
    simp [hupass]
  · have htok : tokenOf u.id = "user_id".toList ++ ':' :: (natDigits u.id ++ []) := by
      rw [List.append_nil]; rfl
    rw [htok]
    refine auth_second_segment (by decide) (colon_not_mem_natDigits u.id) (Or.inl rfl)
      (pyInt?_natDigits u.id) ?_
    rw [husers, List.find?_append]
    have hnone : List.find? (fun x => (x.id : Int) == (u.id : Int)) db.users = none := by
      rw [List.find?_eq_none]
      intro x hx hbeq
      have hxe : (x.id : Int) = (u.id : Int) := by simpa using hbeq
      have hlt : x.id < u.id := hid ▸ lt_nextId (List.mem_map_of_mem User.id hx)
      omega
    rw [hnone]
    simp [List.find?]

/-- Witness for C3: registering `carol` in `demoDb` and then logging in with her
credentials round-trips through the token to the registered user. -/
theorem c3_witness :
    login { username := "carol", password := "pw3" }
        (register ⟨"carol", "carol@x.com", "pw3"⟩ 5 demoDb).2 =
      .ok { token := tokenOf 10, user_id := 10 } ∧
    tokenOf 10 = "user_id:".toList ++ natDigits 10 ∧
    get_current_user (tokenOf 10)
        (register ⟨"carol", "carol@x.com", "pw3"⟩ 5 demoDb).2 = .ok
      { id := 10, username := "carol", email := "carol@x.com", password := "pw3",
        created_at := 5 } :=
  @c3_register_login_auth_roundtrip demoDb
    (register ⟨"carol", "carol@x.com", "pw3"⟩ 5 demoDb).2
    ⟨"carol", "carol@x.com", "pw3"⟩ 5
    ⟨10, "carol", "carol@x.com", "pw3", 5⟩ rfl

/-- C1: a task owned by user A is invisible to any other authenticated user B:
B's get/update/delete on that id fail with the 404 "Task ... not found" error
(and mutate nothing), B's list does not include the task, and the outcome is the
very same error value produced when no task with that id exists at all. -/
theorem c1_cross_user_isolation {db : Store} (A B : User) {t : Task} (upd : TaskUpdate)
    (ht : t ∈ db.tasks) (hA : t.user_id = A.id) (hAB : B.id ≠ A.id)
    (huniq : (db.tasks.map Task.id).Nodup) :
    get_task t.id db B = .error (.notFound s!"Task {t.id} not found") ∧
    update_task t.id upd db B = (.error (.notFound s!"Task {t.id} not found"), db) ∧
    delete_task t.id db B = (.error (.notFound s!"Task {t.id} not found"), db) ∧
    t ∉ list_tasks db B ∧
    (∀ db₂ : Store, (∀ t₂ ∈ db₂.tasks, t₂.id ≠ t.id) →
      get_task t.id db₂ B = .error (.notFound s!"Task {t.id} not found") ∧
      update_task t.id upd db₂ B = (.error (.notFound s!"Task {t.id} not found"), db₂) ∧
      delete_task t.id db₂ B = (.error (.notFound s!"Task {t.id} not found"), db₂)) := by
  have hnone : db.tasks.find? (ownedBy t.id B.id) = none := by
    rw [List.find?_eq_none]
    intro x hx hbx
    unfold ownedBy at hbx
    simp only [Bool.and_eq_true, beq_iff_eq] at hbx
    obtain ⟨hxid, hxuid⟩ := hbx
    have hxt : x = t := List.inj_on_of_nodup_map huniq hx ht hxid
    subst hxt
    rw [hxuid] at hA
    exact hAB hA
  refine ⟨?_, ?_, ?_, ?_, ?_⟩
  · unfold get_task; rw [hnone]
  · unfold update_task; rw [hnone]
  · unfold delete_task; rw [hnone]
  · unfold list_tasks
    intro hmem
    have hfb := (List.mem_filter.1 hmem).2
    simp only [beq_iff_eq] at hfb
    rw [hfb] at hA
    exact hAB hA
  · intro db₂ h2
    have hnone₂ : db₂.tasks.find? (ownedBy t.id B.id) = none := by
      rw [List.find?_eq_none]
      intro x hx hbx
      unfold ownedBy at hbx
      simp only [Bool.and_eq_true, beq_iff_eq] at hbx
      exact h2 x hx hbx.1
    refine ⟨?_, ?_, ?_⟩
    · unfold get_task; rw [hnone₂]
    · unfold update_task; rw [hnone₂]
    · unfold delete_task; rw [hnone₂]

/-- Witness for C1: the concrete task id 1 of `demoUser` is unreachable for
`demoUserB`, with the same 404 error an empty store produces. -/
theorem c1_witness :
    get_task 1 demoDb demoUserB = .error (.notFound "Task 1 not found") ∧
    update_task 1 { status := some (some TaskStatus.done) } demoDb demoUserB =
      (.error (.notFound "Task 1 not found"), demoDb) ∧
    delete_task 1 demoDb demoUserB = (.error (.notFound "Task 1 not found"), demoDb) ∧
    demoTask ∉ list_tasks demoDb demoUserB ∧
    get_task 1 demoDbNoTasks demoUserB = .error (.notFound "Task 1 not found") := by
  have h := @c1_cross_user_isolation demoDb demoUser demoUserB demoTask
    { status := some (some TaskStatus.done) } (by decide) rfl (by decide) (by decide)
  exact ⟨h.1, h.2.1, h.2.2.1, h.2.2.2.1, (h.2.2.2.2 demoDbNoTasks (by decide)).1⟩

/-- C2: a successful partial update changes exactly the caller's row with the
requested id, applies precisely the fields present in the request, retains every
omitted field, never touches id/user_id/created_at, and leaves every other task
and all users unchanged. -/
theorem c2_update_frame {db db' : Store} {cu : User} {tid : Nat} {u : TaskUpdate}
    {t' : Task} (h : update_task tid u db cu = (.ok t', db')) :
    UpdateFrame db db' cu.id tid u t' := by
  unfold update_task at h
  cases hfind : db.tasks.find? (ownedBy tid cu.id) with
  | none => rw [hfind] at h; simp at h
  | some t =>
    rw [hfind] at h
    simp only [] at h
    by_cases hok : rowOk (applyUpdate t u) = true
    · rw [if_pos hok] at h
      simp only [Prod.mk.injEq, Except.ok.injEq] at h
      obtain ⟨ht', hdb'⟩ := h
      subst ht'
      obtain ⟨hpt, as, bs, hdecomp, hforall⟩ := List.find?_eq_some.1 hfind
      have hset : setFirst (ownedBy tid cu.id) (applyUpdate t u) db.tasks =
          as ++ applyUpdate t u :: bs := by
        rw [hdecomp]
        exact setFirst_append_of_forall_not _ t bs
          (fun x hx => by simpa using hforall x hx) hpt
      have hpt' : t.id = tid ∧ t.user_id = cu.id := by
        unfold ownedBy at hpt
        simpa using hpt
      refine ⟨t, as, bs, hdecomp, ?_, ?_, hpt'.1, hpt'.2, rfl, rfl, rfl, rfl, ?_, ?_, ?_,
        ?_, ?_, ?_, ?_, ?_, ?_, ?_⟩
      · rw [← hdb', hset]
      · rw [← hdb']
      · intro hv; simp [applyUpdate, hv]
      · intro hv; simp [applyUpdate, hv]
      · intro hv; simp [applyUpdate, hv]
      · intro hv; simp [applyUpdate, hv]
      · intro hv; simp [applyUpdate, hv]
      · intro v hv; simp [applyUpdate, hv]
      · intro v hv; simp [applyUpdate, hv]
      · intro v hv; simp [applyUpdate, hv]
      · intro v hv; simp [applyUpdate, hv]
      · intro v hv; simp [applyUpdate, hv]
    · rw [if_neg hok] at h
      simp at h

/-- Witness for C2: updating only `status` on the concrete store satisfies the
full frame property. -/
theorem c2_witness :
    UpdateFrame demoDb demoDbDone demoUser.id 1 { status := some (some TaskStatus.done) }
      { demoTask with status := some TaskStatus.done } :=
  c2_update_frame rfl

/-- C4: registering a username that already exists fails with the 400
"Username already taken" error — the username check runs first, so this holds
whether or not the email also collides — while a fresh username with a taken
email fails with the 400 "Email already registered" error; in both cases the
store is returned unchanged (no new user persisted). -/
theorem c4_register_conflicts (db : Store) (uc : UserCreate) (now : Nat) :
    ((∃ x ∈ db.users, x.username = uc.username) →
      register uc now db = (.error (.badRequest "Username already taken"), db)) ∧
    ((∀ x ∈ db.users, x.username ≠ uc.username) →
      (∃ x ∈ db.users, x.email = uc.email) →
      register uc now db = (.error (.badRequest "Email already registered"), db)) := by
  constructor
  · rintro ⟨x, hx, hxe⟩
    unfold register
    have hsome : (db.users.find? (fun y => y.username == uc.username)).isSome := by
      rw [List.find?_isSome]
      exact ⟨x, hx, by simp [hxe]⟩
    cases hU : db.users.find? (fun y => y.username == uc.username) with
    | none => rw [hU] at hsome; simp at hsome
    | some y => rfl
  · intro hnou
    rintro ⟨x, hx, hxe⟩
    unfold register
    have hU : db.users.find? (fun y => y.username == uc.username) = none := by
      rw [List.find?_eq_none]
      intro y hy hby
      exact hnou y hy (by simpa using hby)
    rw [hU]
    have hsome : (db.users.find? (fun y => y.email == uc.email)).isSome := by
      rw [List.find?_isSome]
      exact ⟨x, hx, by simp [hxe]⟩
    cases hE : db.users.find? (fun y => y.email == uc.email) with
    | none => rw [hE] at hsome; simp at hsome
    | some y => rfl

/-- Witness for C4: reusing `alice` (with a colliding email too) yields the
username error; a fresh username with `alice`'s email yields the email error. -/
theorem c4_witness :
    register ⟨"alice", "bob@x.com", "p"⟩ 3 demoDb =
      (.error (.badRequest "Username already taken"), demoDb) ∧
    register ⟨"carol", "alice@x.com", "p"⟩ 3 demoDb =
      (.error (.badRequest "Email already registered"), demoDb) :=
  ⟨(c4_register_conflicts demoDb ⟨"alice", "bob@x.com", "p"⟩ 3).1
      ⟨demoUser, by decide, rfl⟩,
   (c4_register_conflicts demoDb ⟨"carol", "alice@x.com", "p"⟩ 3).2
      (by decide) ⟨demoUser, by decide, rfl⟩⟩

/-- C5: login fails exactly when the username is absent or the stored password
differs from the supplied one, with the *same* 401 "Invalid username or
password" error in both cases, and succeeds (issuing `user_id:<id>`) otherwise. -/
theorem c5_login_cases (db : Store) (cred : UserLogin) :
    ((∀ x ∈ db.users, x.username ≠ cred.username) →
      login cred db = .error (.unauthorized "Invalid username or password")) ∧
    (∀ u ∈ db.users, u.username = cred.username →
      (db.users.map User.username).Nodup →
      ((u.password ≠ cred.password →
        login cred db = .error (.unauthorized "Invalid username or password")) ∧
       (u.password = cred.password →
        login cred db = .ok { token := tokenOf u.id, user_id := u.id }))) := by
  constructor
  · intro hno
    unfold login
    have hN : db.users.find? (fun x => x.username == cred.username) = none := by
      rw [List.find?_eq_none]
      intro x hx hbx
      exact hno x hx (by simpa using hbx)
    rw [hN]
  · intro u hu hname hnodup
    have hfind : db.users.find? (fun x => x.username == cred.username) = some u := by
      have hsome : (db.users.find? (fun x => x.username == cred.username)).isSome := by
        rw [List.find?_isSome]
        exact ⟨u, hu, by simp [hname]⟩
      cases hF : db.users.find? (fun x => x.username == cred.username) with
      | none => rw [hF] at hsome; simp at hsome
      | some v =>
        have hvmem := List.mem_of_find?_eq_some hF
        have hvp := List.find?_some hF
        have hveq : v.username = cred.username := by simpa using hvp
        have hvu : v = u :=
          List.inj_on_of_nodup_map hnodup hvmem hu (by rw [hveq, hname])
        rw [hvu]
    constructor
    · intro hpw
      unfold login
      simp only [hfind]
      rw [if_pos hpw]
    · intro hpw
      unfold login
      simp only [hfind]
      rw [if_neg (fun hne => hne hpw)]

/-- Witness for C5: unknown user and wrong password produce the identical 401;
the correct password logs in as user 7. -/
theorem c5_witness :
    login ⟨"nobody", "pw1"⟩ demoDb =
      .error (.unauthorized "Invalid username or password") ∧
    login ⟨"alice", "wrong"⟩ demoDb =
      .error (.unauthorized "Invalid username or password") ∧
    login ⟨"alice", "pw1"⟩ demoDb = .ok { token := tokenOf 7, user_id := 7 } :=
  ⟨(c5_login_cases demoDb ⟨"nobody", "pw1"⟩).1 (by decide),
   ((c5_login_cases demoDb ⟨"alice", "wrong"⟩).2 demoUser (by decide) rfl
      (by decide)).1 (by decide),
   ((c5_login_cases demoDb ⟨"alice", "pw1"⟩).2 demoUser (by decide) rfl
      (by decide)).2 rfl⟩

/-- Operation `register` preserves the store invariants. -/
theorem inv_register {db : Store} (hInv : Inv db) (uc : UserCreate) (now : Nat) :
    Inv (register uc now db).2 := by
  obtain ⟨href, hun, hem⟩ := hInv
  cases hU : db.users.find? (fun y => y.username == uc.username) with
  | some y => simp only [register, hU]; exact ⟨href, hun, hem⟩
  | none =>
    cases hE : db.users.find? (fun y => y.email == uc.email) with
    | some y => simp only [register, hU, hE]; exact ⟨href, hun, hem⟩
    | none =>
      simp only [register, hU, hE, Inv, List.map_append, List.map_cons, List.map_nil]
      refine ⟨?_, ?_, ?_⟩
      · intro t ht
        obtain ⟨w, hw, hwid⟩ := href t ht
        exact ⟨w, List.mem_append_left _ hw, hwid⟩
      · refine hun.append (List.nodup_singleton _) ?_
        intro a ha hb
        simp only [List.mem_singleton] at hb
        obtain ⟨y, hy, hyname⟩ := List.mem_map.1 ha
        have hne := List.find?_eq_none.1 hU y hy
        simp only [beq_iff_eq] at hne
        exact hne (by rw [hyname, hb])
      · refine hem.append (List.nodup_singleton _) ?_
        intro a ha hb
        simp only [List.mem_singleton] at hb
        obtain ⟨y, hy, hymail⟩ := List.mem_map.1 ha
        have hne := List.find?_eq_none.1 hE y hy
        simp only [beq_iff_eq] at hne
        exact hne (by rw [hymail, hb])

/-- Operation `create_task` preserves the store invariants when the caller exists. -/
theorem inv_create {db : Store} {cu : User} (hInv : Inv db) (hcu : cu ∈ db.users)
    (tc : TaskCreate) (now : Nat) : Inv (create_task tc now db cu).2 := by
  obtain ⟨href, hun, hem⟩ := hInv
  simp only [create_task, Inv]
  refine ⟨?_, hun, hem⟩
  intro t ht
  rcases List.mem_append.1 ht with h1 | h1
  · exact href t h1
  · simp only [List.mem_singleton] at h1
    subst h1
    exact ⟨cu, hcu, rfl⟩

/-- Operation `update_task` preserves the store invariants (`user_id` is never among the
updatable fields). -/
theorem inv_update {db : Store} (hInv : Inv db) (tid : Nat) (u : TaskUpdate) (cu : User) :
    Inv (update_task tid u db cu).2 := by
  obtain ⟨href, hun, hem⟩ := hInv
  cases hfind : db.tasks.find? (ownedBy tid cu.id) with
  | none => simp only [update_task, hfind]; exact ⟨href, hun, hem⟩
  | some t =>
    by_cases hok : rowOk (applyUpdate t u) = true
    · simp only [update_task, hfind, if_pos hok, Inv]
      refine ⟨?_, hun, hem⟩
      intro x hx
      rcases mem_setFirst hx with h1 | h1
      · subst h1
        obtain ⟨w, hw, hwid⟩ := href t (List.mem_of_find?_eq_some hfind)
        refine ⟨w, hw, ?_⟩
        simpa [applyUpdate] using hwid
      · exact href x h1
    · simp only [update_task, hfind, if_neg hok]
      exact ⟨href, hun, hem⟩

/-- Operation `delete_task` preserves the store invariants. -/
theorem inv_delete {db : Store} (hInv : Inv db) (tid : Nat) (cu : User) :
    Inv (delete_task tid db cu).2 := by
  obtain ⟨href, hun, hem⟩ := hInv
  cases hfind : db.tasks.find? (ownedBy tid cu.id) with
  | none => simp only [delete_task, hfind]; exact ⟨href, hun, hem⟩
  | some t =>
    simp only [delete_task, hfind, Inv]
    refine ⟨?_, hun, hem⟩
    intro x hx
    exact href x (List.eraseP_subset _ hx)

/-- Operation `update_task` never touches the users table. -/
theorem update_task_users_eq (tid : Nat) (u : TaskUpdate) (db : Store) (cu : User) :
    (update_task tid u db cu).2.users = db.users := by
  cases hfind : db.tasks.find? (ownedBy tid cu.id) with
  | none => simp only [update_task, hfind]
  | some t =>
    by_cases hok : rowOk (applyUpdate t u) = true
    · simp only [update_task, hfind, if_pos hok]
    · simp only [update_task, hfind, if_neg hok]

/-- Operation `delete_task` never touches the users table. -/
theorem delete_task_users_eq (tid : Nat) (db : Store) (cu : User) :
    (delete_task tid db cu).2.users = db.users := by
  cases hfind : db.tasks.find? (ownedBy tid cu.id) with
  | none => simp only [delete_task, hfind]
  | some t => simp only [delete_task, hfind]

/-- C6: every mutating operation preserves the store invariants (task `user_id`
references an existing user; usernames and emails are unique), task creation
always stamps the caller's id on the new row, and the task routes never modify
the users table. -/
theorem c6_invariants_preserved {db : Store} (hInv : Inv db) :
    (∀ uc now, Inv (register uc now db).2) ∧
    (∀ tc now cu, cu ∈ db.users → Inv (create_task tc now db cu).2) ∧
    (∀ tc now (cu : User) t, (create_task tc now db cu).1 = .ok t → t.user_id = cu.id) ∧
    (∀ tid u cu, Inv (update_task tid u db cu).2 ∧
      (update_task tid u db cu).2.users = db.users) ∧
    (∀ tid cu, Inv (delete_task tid db cu).2 ∧
      (delete_task tid db cu).2.users = db.users) := by
  refine ⟨fun uc now => inv_register hInv uc now,
          fun tc now cu hcu => inv_create hInv hcu tc now,
          fun tc now cu t hok => ?_,
          fun tid u cu => ⟨inv_update hInv tid u cu, update_task_users_eq tid u db cu⟩,
          fun tid cu => ⟨inv_delete hInv tid cu, delete_task_users_eq tid db cu⟩⟩
  simp only [create_task, Except.ok.injEq] at hok
  rw [← hok]

/-- Witness for C6: the invariants hold after each concrete operation on the
demonstration store. -/
theorem c6_witness :
    Inv (register ⟨"carol", "carol@x.com", "p"⟩ 3 demoDb).2 ∧
    Inv (create_task { title := "T" } 3 demoDb demoUser).2 ∧
    ({ id := 2, title := some "T", description := none, status := some TaskStatus.todo,
       priority := some TaskPriority.medium, created_at := 3, due_date := none,
       user_id := 7 } : Task).user_id = demoUser.id ∧
    Inv (update_task 1 { status := some (some TaskStatus.done) } demoDb demoUser).2 ∧
    Inv (delete_task 1 demoDb demoUser).2 ∧
    (delete_task 1 demoDb demoUser).2.users = demoDb.users := by
  have h := @c6_invariants_preserved demoDb (by unfold Inv; refine ⟨?_, ?_, ?_⟩ <;> decide)
  exact ⟨h.1 ⟨"carol", "carol@x.com", "p"⟩ 3,
         h.2.1 { title := "T" } 3 demoUser (by decide),
         h.2.2.1 { title := "T" } 3 demoUser _ rfl,
         (h.2.2.2.1 1 { status := some (some TaskStatus.done) } demoUser).1,
         (h.2.2.2.2 1 demoUser).1,
         (h.2.2.2.2 1 demoUser).2⟩

/-- C7: `create_task` persists and returns a task mirroring the request fields —
with pydantic defaults status `todo`, priority `medium`, null description and
due date when only the title was supplied — owned by the caller, with the
server-assigned id and creation time, appended to the store. -/
theorem c7_create_defaults (db : Store) (cu : User) (now : Nat) (tc : TaskCreate) :
    CreateResult db cu now tc := by
  refine ⟨_, _, rfl, rfl, rfl, rfl, rfl, rfl, rfl, rfl, rfl, rfl, rfl, ?_⟩
  intro htc
  have hs := congrArg TaskCreate.status htc
  have hp := congrArg TaskCreate.priority htc
  have hd := congrArg TaskCreate.description htc
  have hw := congrArg TaskCreate.due_date htc
  exact ⟨congrArg some hs, congrArg some hp, hd, hw⟩

/-- Witness for C7: creating a title-only task in the concrete store. -/
theorem c7_witness : CreateResult demoDbNoTasks demoUser 0 { title := "Buy milk" } :=
  c7_create_defaults demoDbNoTasks demoUser 0 { title := "Buy milk" }

/-- Every failure of `get_current_user` is a 401. -/
theorem get_current_user_error_unauthorized {tok : List Char} {db : Store} {e : HErr}
    (h : get_current_user tok db = .error e) : e.status = 401 := by
  unfold get_current_user at h
  cases h1 : (pySplit ':' tok).get? 1 with
  | none =>
    simp only [h1, Except.error.injEq] at h
    rw [← h]
    rfl
  | some seg =>
    simp only [h1] at h
    cases h2 : pyInt? seg with
    | none =>
      simp only [h2, Except.error.injEq] at h
      rw [← h]
      rfl
    | some uid =>
      simp only [h2] at h
      cases h3 : db.users.find? (fun x => (x.id : Int) == uid) with
      | none =>
        simp only [h3, Except.error.injEq] at h
        rw [← h]
        rfl
      | some u =>
        simp only [h3] at h
        simp at h

/-- Counterexample for C8 as stated: against `demoDb`, which does contain task 1,
a request with the `x-token` header missing is rejected by the framework's
request validation with status 422, not with 401. -/
theorem c8_counterexample :
    getTaskRoute none 1 demoDb = (.error .validationError, demoDb) ∧
    HErr.validationError.status = 422 ∧
    HErr.validationError.status ≠ 401 ∧
    demoTask ∈ demoDb.tasks :=
  ⟨rfl, rfl, by decide, by decide⟩

/-- C8 (amended): on every task route, authentication is resolved before the row
lookup.  A present token that is malformed or references a non-existent user
makes every route fail with that same 401 error, and a missing `x-token` header
makes every route fail with the framework's 422 validation error; in all cases
this happens whatever tasks the store holds, the store is returned untouched,
and the outcome is never a 404. -/
theorem c8_auth_before_lookup (db : Store) (tok : Option (List Char)) (tid : Nat)
    (u : TaskUpdate) (tc : TaskCreate) (now : Nat) (e : HErr)
    (h : (tok = none ∧ e = .validationError) ∨
         (∃ s, tok = some s ∧ get_current_user s db = .error e)) :
    listTasksRoute tok db = (.error e, db) ∧
    createTaskRoute tok tc now db = (.error e, db) ∧
    getTaskRoute tok tid db = (.error e, db) ∧
    updateTaskRoute tok tid u db = (.error e, db) ∧
    deleteTaskRoute tok tid db = (.error e, db) ∧
    (tok = none → e.status = 422) ∧
    ((∃ s, tok = some s) → e.status = 401) ∧
    e.status ≠ 404 := by
  rcases h with ⟨htok, he⟩ | ⟨s, htok, he⟩
  · subst htok
    subst he
    refine ⟨rfl, rfl, rfl, rfl, rfl, fun _ => rfl, ?_, by decide⟩
    rintro ⟨s, hs⟩
    cases hs
  · subst htok
    have h401 : e.status = 401 := get_current_user_error_unauthorized he
    have hroute : ∀ {α : Type} (handler : User → Except HErr α × Store),
        authThen (some s) db handler = (.error e, db) := by
      intro α handler
      unfold authThen
      simp only [he]
    refine ⟨hroute _, hroute _, hroute _, hroute _, hroute _, ?_, fun _ => h401, ?_⟩
    · intro hn
      cases hn
    · rw [h401]
      decide

/-- Witness for C8 (amended): a colon-free token makes the concrete get-task
request fail 401 with the store untouched. -/
theorem c8_witness :
    getTaskRoute (some "junk".toList) 1 demoDb =
      (.error (.unauthorized "Invalid token format"), demoDb) ∧
    (HErr.unauthorized "Invalid token format").status = 401 := by
  have h := c8_auth_before_lookup demoDb (some "junk".toList) 1 {} { title := "T" } 0
    (.unauthorized "Invalid token format") (Or.inr ⟨_, rfl, rfl⟩)
  exact ⟨h.2.2.1, h.2.2.2.2.2.2.1 ⟨_, rfl⟩⟩

/-- Counterexample for C10 as stated: sending `title: null` does not clear the
stored title — the commit violates the NOT NULL `title` column, so the request
fails with the 500 integrity error and the store is unchanged. -/
theorem c10_counterexample :
    update_task 1 { title := some none } demoDb demoUser =
      (.error .integrityError, demoDb) ∧
    HErr.integrityError.status = 500 :=
  ⟨rfl, rfl⟩

/-- C10 (amended): a field explicitly present with a null value counts as present
and is applied to the row, not retained — for the nullable `description` and
`due_date` columns the cleared value is committed and persisted, and explicit
null is distinguishable from omission; `title` is likewise set to null on the
row object, but committing it violates the non-nullable `title` column, so the
update fails with the 500 integrity error and persists nothing. -/
theorem c10_explicit_null {db : Store} {cu : User} {tid : Nat} (u : TaskUpdate)
    {t : Task} (hfind : db.tasks.find? (ownedBy tid cu.id) = some t) :
    (u.description = some none → (applyUpdate t u).description = none) ∧
    (u.due_date = some none → (applyUpdate t u).due_date = none) ∧
    (u.title = some none → (applyUpdate t u).title = none) ∧
    (u.description = none → (applyUpdate t u).description = t.description) ∧
    (u.due_date = none → (applyUpdate t u).due_date = t.due_date) ∧
    (u.title = some none →
      update_task tid u db cu = (.error .integrityError, db)) ∧
    (rowOk (applyUpdate t u) = true →
      update_task tid u db cu =
        (.ok (applyUpdate t u),
         { db with tasks := setFirst (ownedBy tid cu.id) (applyUpdate t u) db.tasks }) ∧
      applyUpdate t u ∈ setFirst (ownedBy tid cu.id) (applyUpdate t u) db.tasks) := by
  refine ⟨?_, ?_, ?_, ?_, ?_, ?_, ?_⟩
  · intro hv; simp [applyUpdate, hv]
  · intro hv; simp [applyUpdate, hv]
  · intro hv; simp [applyUpdate, hv]
  · intro hv; simp [applyUpdate, hv]
  · intro hv; simp [applyUpdate, hv]
  · intro hv
    have hbad : ¬ rowOk (applyUpdate t u) = true := by
      simp [rowOk, applyUpdate, hv]
    simp only [update_task, hfind, if_neg hbad]
  · intro hok
    refine ⟨by simp only [update_task, hfind, if_pos hok], ?_⟩
    obtain ⟨hpt, as, bs, hdecomp, hforall⟩ := List.find?_eq_some.1 hfind
    rw [hdecomp, setFirst_append_of_forall_not _ t bs
      (fun x hx => by simpa using hforall x hx) hpt]
    exact List.mem_append_right _ (List.mem_cons_self _ _)

/-- Witness for C10 (amended): explicit nulls clear `description`/`due_date` and
are committed; an explicit null `title` makes the concrete update fail with the
integrity error. -/
theorem c10_witness :
    (applyUpdate demoTask { description := some none, due_date := some none }).description
      = none ∧
    (applyUpdate demoTask { description := some none, due_date := some none }).due_date
      = none ∧
    update_task 1 { description := some none, due_date := some none } demoDb demoUser =
      (.ok (applyUpdate demoTask { description := some none, due_date := some none }),
       { demoDb with
         tasks := setFirst (ownedBy 1 demoUser.id)
           (applyUpdate demoTask { description := some none, due_date := some none })
           demoDb.tasks }) ∧
    update_task 1 { title := some none } demoDb demoUser =
      (.error .integrityError, demoDb) := by
  have h1 := @c10_explicit_null demoDb demoUser 1
    { description := some none, due_date := some none } demoTask rfl
  have h2 := @c10_explicit_null demoDb demoUser 1 { title := some none } demoTask rfl
  exact ⟨h1.1 rfl, h1.2.1 rfl, (h1.2.2.2.2.2.2 rfl).1, h2.2.2.2.2.2.1 rfl⟩

end TaskManager
